import Mathlib

/-!
# driveignore: the `diff` command (`cmd/diff.go`)

A shallow embedding of the directory-diff command: the two walk visitors
(the closures handed to `utils.Walker`), the consumer that drains the two
result channels, and the positional-argument validator.

Modelling conventions.

* A path is the sequence of its components; `filepath.Join` is concatenation.
* A Go `error` value is `Option GoError` (`none` is `nil`).
* `os.Stat` is the observation of the filesystem the visitors make; it is a
  parameter, and its result is either a `FileInfo` or an error number.
* A send on an unbuffered channel is recorded in the order it happens: a
  visitor returns the list of paths it sent together with its return value.
  Each channel has one producer and one consumer, and the consumer reads a
  channel to its close, so what is printed is fixed by the two sequences.
* `utils.Walker` and `utils.DriveIgnore` are not in `cmd/diff.go`; `RunE` takes
  them as parameters. Statements about a whole walk use the walker of spec 4.2,
  `utils.Walker` below.
-/

namespace DriveIgnore

/-- Paths are kept as their sequence of components. -/
abbrev Path := List String

/-- Error numbers that a failing `os.Stat` may carry. -/
inductive Errno where
  | ENOENT
  | EACCES
  | EIO
  | ENOTDIR
  | ELOOP
  deriving DecidableEq, Repr

/-- Go `error` values that occur in the command. -/
inductive GoError where
  | errno (e : Errno)
  | SkipDir
  | New (msg : String)
  deriving DecidableEq, Repr

/-- The part of `os.FileInfo` the command reads: the directory flag, and the
device and inode numbers that `os.SameFile` compares. -/
structure FileInfo where
  IsDir : Bool
  dev : Nat
  ino : Nat
  deriving DecidableEq, Repr

/-- Result of `os.Stat`: a `FileInfo` and a nil error, or a nil `FileInfo` and
the error. -/
inductive StatResult where
  | ok (info : FileInfo)
  | fail (e : Errno)
  deriving DecidableEq, Repr

/-- First value returned by `os.Stat` (nil on failure). -/
def StatResult.info : StatResult → Option FileInfo
  | .ok i => some i
  | .fail _ => none

/-- Second value returned by `os.Stat` (nil on success). -/
def StatResult.err : StatResult → Option GoError
  | .ok _ => none
  | .fail e => some (.errno e)

/-- Model of `os.IsNotExist`: true exactly for the not-exist error number. -/
def os.IsNotExist (err : Option GoError) : Bool :=
  match err with
  | some (.errno .ENOENT) => true
  | _ => false

/-- Model of `os.SameFile`: false when either side is not a real file stat (a nil
`FileInfo`), otherwise device and inode are compared. -/
def os.SameFile (fi1 fi2 : Option FileInfo) : Bool :=
  match fi1, fi2 with
  | some a, some b => a.dev == b.dev && a.ino == b.ino
  | _, _ => false

/-- Model of `filepath.Join` on component sequences. -/
def filepath.Join (a b : Path) : Path := a ++ b

/-- The ignore matcher returned by `utils.DriveIgnore`; only `Match` is used. -/
structure IgnoreMatcher where
  Match : Path → Bool → Bool

/-- What a visitor call does: the paths it sends on its channel, in order, and
the `error` it returns. -/
structure VisitOut where
  sent : List Path
  ret : Option GoError
  deriving DecidableEq, Repr

/-- Type of the callback handed to `utils.Walker`:
`func(currPath string, info os.FileInfo, relativePath string) error`. -/
abbrev Visitor := Path → FileInfo → Path → VisitOut

/-- The variables of `RunE` captured by the two visitor closures. -/
structure Env where
  driveignore : IgnoreMatcher
  diffInput : Path
  target : Path
  Stat : Path → StatResult

/-- Visitor of the walk over `diffInput` (diff.go lines 61-76). -/
def missingVisitor (env : Env) : Visitor := fun currPath info relativePath =>
  if info.IsDir && env.driveignore.Match currPath true then
    { sent := [], ret := some .SkipDir }
  else if !info.IsDir && env.driveignore.Match currPath false then
    { sent := [], ret := none }
  else
    let goalPath := filepath.Join env.target relativePath
    let goalStat := (env.Stat goalPath).info
    let err := (env.Stat goalPath).err
    if os.IsNotExist err || (!os.SameFile (some info) goalStat && !info.IsDir) then
      { sent := [relativePath], ret := none }
    else
      { sent := [], ret := none }

/-- Visitor of the walk over `args[0]` (diff.go lines 82-90). -/
def staleVisitor (env : Env) : Visitor := fun _currPath info relativePath =>
  let inputPath := filepath.Join env.diffInput relativePath
  let goalStat := (env.Stat inputPath).info
  let err := (env.Stat inputPath).err
  if os.IsNotExist err || (!os.SameFile (some info) goalStat && !info.IsDir) then
    { sent := [relativePath], ret := none }
  else
    { sent := [], ret := none }

/-- How a Go call ends: it returns a value, or the goroutine panics. -/
inductive Outcome (α : Type) where
  | returns (v : α)
  | panics (msg : String)
  deriving DecidableEq, Repr

/-- The positional-argument validator `diffCmd.Args` (diff.go lines 108-120).
Indexing `args[0]` needs one element, and calling `fstat.IsDir()` on a nil
`FileInfo` is a nil dereference. -/
def diffCmd.Args (Stat : Path → StatResult) (args : List Path) : Outcome (Option GoError) :=
  if args.length != 1 then
    .returns (some (.New "There should only be one argument"))
  else
    match args.head? with
    | none => .panics "index out of range"
    | some a =>
      let fstat := (Stat a).info
      let err := (Stat a).err
      if os.IsNotExist err then
        .returns (some (.New "Passed path doesnt exist"))
      else
        match fstat with
        | none => .panics "invalid memory address or nil pointer dereference"
        | some fi =>
          if !fi.IsDir then
            .returns (some (.New "Passed path isnt a directory"))
          else
            .returns none

/-- The four values of the ignore type returned by `utils.DriveIgnore`. -/
inductive IgnoreType where
  | GlobalIgnore
  | LocalIgnore
  | MergedIgnore
  | NoIgnore
  deriving DecidableEq, Repr

/-- What a whole walk does: the paths sent on its channel before the channel
is closed, and the error `utils.Walker` returns. -/
abbrev WalkOut := VisitOut

/-- The collaborators of `RunE` that live outside `cmd/diff.go`: `os.Stat`,
`utils.DriveIgnore` and `utils.Walker`. -/
structure Sys where
  Stat : Path → StatResult
  DriveIgnore : Path → Bool → IgnoreMatcher × IgnoreType
  Walker : Path → Visitor → WalkOut

/-- One printed line: `redPrint` for a missing path, `yellowPrint` for a stale
one. -/
inductive Line where
  | red (p : Path)
  | yellow (p : Path)
  deriving DecidableEq, Repr

/-- Observable behaviour of one `RunE` call: the messages handed to `vPrint`,
the roots of the walks that were launched, the lines printed, and the error
returned. -/
structure RunResult where
  vlog : List String
  started : List Path
  printed : List Line
  ret : Option GoError
  deriving DecidableEq, Repr

/-- Body of the first goroutine (diff.go lines 60-78): the walk over
`diffInput`; its sends are the `missing` channel and its error is `err1`. -/
def missingWalk (sys : Sys) (env : Env) : WalkOut :=
  sys.Walker env.diffInput (missingVisitor env)

/-- Body of the second goroutine (diff.go lines 81-92): the walk over
`args[0]`; its sends are the `old` channel and its error is `err2`. -/
def oldWalk (sys : Sys) (env : Env) : WalkOut :=
  sys.Walker env.target (staleVisitor env)

/-- The command body `diffCmd.RunE` (diff.go lines 37-107); `target` is
`args[0]`. `loaded` is the message of the switch case taken, and is absent for
the case that returns. The first channel is drained to its close before `err1`
is read, and the second channel is only drained when `err1` is nil. -/
def diffCmd.RunE (sys : Sys) (diffInput : Path) (diffMergeIgnores : Bool) (target : Path) :
    RunResult :=
  let driveignore := (sys.DriveIgnore diffInput diffMergeIgnores).1
  let driveignoreType := (sys.DriveIgnore diffInput diffMergeIgnores).2
  let loaded : Option String :=
    match driveignoreType with
    | .GlobalIgnore => some "loaded global .driveignore"
    | .LocalIgnore => some "loaded local .driveignore"
    | .MergedIgnore => some "loaded merged global and local .driveignore"
    | .NoIgnore => none
  match loaded with
  | none =>
    { vlog := [], started := [], printed := [],
      ret := some (.New "No local nor global .driveignores found") }
  | some msg =>
    let env : Env :=
      { driveignore := driveignore, diffInput := diffInput, target := target, Stat := sys.Stat }
    let w1 := missingWalk sys env
    let w2 := oldWalk sys env
    let reds := w1.sent.map Line.red
    match w1.ret with
    | some err1 =>
      { vlog := [msg], started := [diffInput, target], printed := reds, ret := some err1 }
    | none =>
      { vlog := [msg], started := [diffInput, target],
        printed := reds ++ w2.sent.map Line.yellow, ret := w2.ret }

/-- An entry below a walk root: a non-directory, a directory with its entries
in listing order, or an entry at which the walk meets a filesystem error. -/
inductive Entry where
  | file (name : String) (dev ino : Nat)
  | dir (name : String) (dev ino : Nat) (children : List Entry)
  | unreadable (name : String) (e : Errno)
  deriving Repr

/-- Name of an entry inside its directory. -/
def Entry.name : Entry → String
  | .file n _ _ => n
  | .dir n _ _ _ => n
  | .unreadable n _ => n

/-- The directory at a walk root. -/
structure Tree where
  dev : Nat
  ino : Nat
  children : List Entry

mutual
/-- Modelled from the spec: the traversal of `utils.Walker` (spec 4.2) below the
root, for one entry whose parent has relative path `rel`. Pre-order and
depth-first; the visitor gets the absolute path (root joined with the relative
path), the metadata and the relative path; skip-subtree returned for a
directory stops the descent and the walk goes on with the siblings; any other
error from the visitor, and any filesystem error the walk meets, halts the walk
and is returned. Skip-subtree returned for a non-directory has nothing to skip. -/
def walkEntry (visit : Visitor) (root rel : Path) : Entry → WalkOut
  | .file name dev ino =>
    let r := rel ++ [name]
    let o := visit (filepath.Join root r) { IsDir := false, dev := dev, ino := ino } r
    match o.ret with
    | some .SkipDir => { sent := o.sent, ret := none }
    | _ => o
  | .dir name dev ino children =>
    let r := rel ++ [name]
    let o := visit (filepath.Join root r) { IsDir := true, dev := dev, ino := ino } r
    match o.ret with
    | none =>
      let w := walkEntries visit root r children
      { sent := o.sent ++ w.sent, ret := w.ret }
    | some .SkipDir => { sent := o.sent, ret := none }
    | some e => { sent := o.sent, ret := some e }
  | .unreadable _ e => { sent := [], ret := some (.errno e) }
/-- Modelled from the spec: the traversal of `utils.Walker` over the entries of
one directory, in listing order, halting at the first error. -/
def walkEntries (visit : Visitor) (root rel : Path) : List Entry → WalkOut
  | [] => { sent := [], ret := none }
  | e :: rest =>
    let o := walkEntry visit root rel e
    match o.ret with
    | none =>
      let w := walkEntries visit root rel rest
      { sent := o.sent ++ w.sent, ret := w.ret }
    | some err => { sent := o.sent, ret := some err }
end

/-- Modelled from the spec: `utils.Walker` (spec 4.2), which is not part of
`cmd/diff.go`. `ls` gives the directory found at a root; `visitRoot` says
whether the root itself is visited (the spec leaves that open), with the empty
relative path. -/
def utils.Walker (visitRoot : Bool) (ls : Path → Tree) (root : Path) (visit : Visitor) : WalkOut :=
  let t := ls root
  if visitRoot then
    let o := visit root { IsDir := true, dev := t.dev, ino := t.ino } []
    match o.ret with
    | none =>
      let w := walkEntries visit root [] t.children
      { sent := o.sent ++ w.sent, ret := w.ret }
    | some .SkipDir => { sent := o.sent, ret := none }
    | some e => { sent := o.sent, ret := some e }
  else
    walkEntries visit root [] t.children

/-- First entry of a directory listing with the given name. -/
def findEntry (n : String) : List Entry → Option Entry
  | [] => none
  | e :: rest => if e.name = n then some e else findEntry n rest

/-- Entry found at a relative path below a directory listing. -/
def lookup : List Entry → Path → Option Entry
  | _, [] => none
  | es, [n] => findEntry n es
  | es, n :: m :: ns =>
    match findEntry n es with
    | some (.dir _ _ _ children) => lookup children (m :: ns)
    | _ => none

mutual
/-- Names are unique inside every directory below this entry. -/
def Entry.uniqueNames : Entry → Bool
  | .file _ _ _ => true
  | .dir _ _ _ children => decide (children.map Entry.name).Nodup && uniqueNamesList children
  | .unreadable _ _ => true
/-- Every entry of the listing has unique names below it. -/
def uniqueNamesList : List Entry → Bool
  | [] => true
  | e :: rest => e.uniqueNames && uniqueNamesList rest
end

/-- A directory listing of a real filesystem: no two entries of one directory
share a name, at every depth. -/
def WellFormed (es : List Entry) : Prop :=
  (es.map Entry.name).Nodup ∧ uniqueNamesList es = true

instance (es : List Entry) : Decidable (WellFormed es) :=
  inferInstanceAs (Decidable (_ ∧ _))

/-- The mirrored-path test that both visitors spell out (diff.go lines 72 and
86), named so that lemmas can refer to it: the stat reports not-exist, or the
entry is not a directory and is not the same file as what the stat found. -/
def reports (info : FileInfo) (st : StatResult) : Bool :=
  os.IsNotExist st.err || (!os.SameFile (some info) st.info && !info.IsDir)

/-- A visitor that only ever sends the relative path it was called with. -/
def SendsOwnPath (visit : Visitor) : Prop :=
  ∀ (currPath : Path) (info : FileInfo) (relativePath q : Path),
    q ∈ (visit currPath info relativePath).sent → q = relativePath

/-! ## Concrete filesystems for the scenarios -/

/-- What `os.Stat` reports for an entry of a listing. -/
def Entry.stat : Entry → StatResult
  | .file _ dev ino => .ok { IsDir := false, dev := dev, ino := ino }
  | .dir _ dev ino _ => .ok { IsDir := true, dev := dev, ino := ino }
  | .unreadable _ e => .fail e

/-- A filesystem holding two directory trees, the input root and the target
root. -/
structure Disk where
  input : Path
  inputTree : Tree
  target : Path
  targetTree : Tree

/-- Stat of a path below a root directory: the root itself, an entry of the
tree, or not-exist. -/
def statUnder (t : Tree) (rel : Path) : StatResult :=
  match rel with
  | [] => .ok { IsDir := true, dev := t.dev, ino := t.ino }
  | n :: ns =>
    match lookup t.children (n :: ns) with
    | some e => e.stat
    | none => .fail .ENOENT

/-- The `os.Stat` of a disk. -/
def Disk.Stat (d : Disk) (p : Path) : StatResult :=
  if d.input.isPrefixOf p then statUnder d.inputTree (p.drop d.input.length)
  else if d.target.isPrefixOf p then statUnder d.targetTree (p.drop d.target.length)
  else .fail .ENOENT

/-- The directory found at a walk root of a disk. -/
def Disk.ls (d : Disk) (root : Path) : Tree :=
  if root = d.input then d.inputTree else d.targetTree

/-- The collaborators of `RunE` on a disk: the given ignore matcher and type,
and the walker of spec 4.2. -/
def Disk.sys (d : Disk) (ig : IgnoreMatcher) (ty : IgnoreType) (visitRoot : Bool) : Sys :=
  { Stat := d.Stat
    DriveIgnore := fun _ _ => (ig, ty)
    Walker := utils.Walker visitRoot d.ls }

/-- The variables captured by the visitors on a disk. -/
def Disk.env (d : Disk) (ig : IgnoreMatcher) : Env :=
  { driveignore := ig, diffInput := d.input, target := d.target, Stat := d.Stat }

/-- An ignore matcher for the pattern `*.tmp`: the last component ends in
`.tmp`. -/
def ignoreTmp : IgnoreMatcher :=
  { Match := fun p _ =>
      match p.getLast? with
      | some n => ".tmp".data.isSuffixOf n.data
      | none => false }

/-- An ignore matcher for the directory-only pattern `sub/`. -/
def ignoreSubDir : IgnoreMatcher :=
  { Match := fun p isDir => isDir && p.getLast? == some "sub" }

/-- An ignore matcher with no pattern. -/
def ignoreNothing : IgnoreMatcher :=
  { Match := fun _ _ => false }

/-- Scenarios 1 and 2 together: `a.txt` only in the source, `b.txt` only in the
target. -/
def diskOneEach : Disk :=
  { input := ["src"], inputTree := { dev := 1, ino := 2, children := [.file "a.txt" 1 10] }
    target := ["drive"], targetTree := { dev := 1, ino := 3, children := [.file "b.txt" 1 11] } }

/-- Scenario 3 with one more file: `c.tmp` and `d.txt` only in the source. -/
def diskTmp : Disk :=
  { input := ["src"]
    inputTree := { dev := 1, ino := 2, children := [.file "c.tmp" 1 10, .file "d.txt" 1 11] }
    target := ["drive"], targetTree := { dev := 1, ino := 3, children := [] } }

/-- Scenario 4: directory `sub` with `inner.txt`, only in the source. -/
def diskSub : Disk :=
  { input := ["src"]
    inputTree := { dev := 1, ino := 2, children := [.dir "sub" 1 10 [.file "inner.txt" 1 11]] }
    target := ["drive"], targetTree := { dev := 1, ino := 3, children := [] } }

/-- The source has the file `secret.txt` and the directory `vault`; in the
target the stat of both names fails with permission denied. -/
def diskDenied : Disk :=
  { input := ["src"]
    inputTree := { dev := 1, ino := 2,
                   children := [.file "secret.txt" 1 10, .dir "vault" 1 11 []] }
    target := ["drive"]
    targetTree := { dev := 1, ino := 3,
                    children := [.unreadable "secret.txt" .EACCES,
                                 .unreadable "vault" .EACCES] } }

/-- The source has an entry the walk cannot read; the target has `b.txt`, which
the source lacks. -/
def diskLocked : Disk :=
  { input := ["src"]
    inputTree := { dev := 1, ino := 2, children := [.unreadable "locked" .EACCES] }
    target := ["drive"], targetTree := { dev := 1, ino := 3, children := [.file "b.txt" 1 11] } }

/-- The target has the file `secret.txt`; in the source the stat of that name
fails with permission denied. -/
def diskDeniedInput : Disk :=
  { input := ["src"]
    inputTree := { dev := 1, ino := 2, children := [.unreadable "secret.txt" .EACCES] }
    target := ["drive"]
    targetTree := { dev := 1, ino := 3, children := [.file "secret.txt" 1 20] } }

/-- The source has the directory `docs` holding `a.txt` and `c.tmp`; the target
is empty. -/
def diskDocs : Disk :=
  { input := ["src"]
    inputTree := { dev := 1, ino := 2,
                   children := [.dir "docs" 1 10 [.file "a.txt" 1 11, .file "c.tmp" 1 12]] }
    target := ["drive"], targetTree := { dev := 1, ino := 3, children := [] } }

/-- The environment the two visitor closures of `RunE` capture: the matcher
returned by `utils.DriveIgnore`, the two roots and `os.Stat`. -/
def capturedEnv (sys : Sys) (diffInput : Path) (diffMergeIgnores : Bool) (target : Path) : Env :=
  { driveignore := (sys.DriveIgnore diffInput diffMergeIgnores).1
    diffInput := diffInput, target := target, Stat := sys.Stat }

/-- A filesystem where `f.txt` is a regular file: nothing exists below it, and
the stat of a path below it fails with not-a-directory. -/
def statBelowFile (p : Path) : StatResult :=
  match p with
  | ["f.txt"] => .ok { IsDir := false, dev := 1, ino := 5 }
  | "f.txt" :: _ :: _ => .fail .ENOTDIR
  | _ => .fail .ENOENT

/-- A filesystem where `locked/dir` is a directory and `locked` cannot be
searched: the stat of `locked` succeeds, the stat of a path below it fails with
permission denied. -/
def statLockedParent (p : Path) : StatResult :=
  match p with
  | ["locked"] => .ok { IsDir := true, dev := 1, ino := 6 }
  | "locked" :: _ :: _ => .fail .EACCES
  | _ => .fail .ENOENT

/-! ## The visitors -/

theorem isNotExist_err_iff (st : StatResult) :
    os.IsNotExist st.err = true ↔ st = .fail .ENOENT := by
  cases st with
  | ok i => simp [StatResult.err, os.IsNotExist]
  | fail e => cases e <;> simp [StatResult.err, os.IsNotExist]

theorem reports_iff (info : FileInfo) (st : StatResult) :
    reports info st = true ↔
      st = .fail .ENOENT ∨ (info.IsDir = false ∧ os.SameFile (some info) st.info = false) := by
  unfold reports
  rw [Bool.or_eq_true, isNotExist_err_iff]
  cases info.IsDir <;> cases os.SameFile (some info) st.info <;> simp

theorem missingVisitor_not_excluded (env : Env) (currPath : Path) (info : FileInfo)
    (relativePath : Path) (h : env.driveignore.Match currPath info.IsDir = false) :
    missingVisitor env currPath info relativePath =
      { sent := if reports info (env.Stat (filepath.Join env.target relativePath)) then
          [relativePath] else [],
        ret := none } := by
  unfold missingVisitor reports
  cases hd : info.IsDir <;> rw [hd] at h <;> simp [h] <;> split <;> simp_all

theorem staleVisitor_eq (env : Env) (currPath : Path) (info : FileInfo) (relativePath : Path) :
    staleVisitor env currPath info relativePath =
      { sent := if reports info (env.Stat (filepath.Join env.diffInput relativePath)) then
          [relativePath] else [],
        ret := none } := by
  unfold staleVisitor reports
  split <;> simp_all

theorem missingVisitor_skipDir (env : Env) (currPath : Path) (info : FileInfo)
    (relativePath : Path) (hd : info.IsDir = true)
    (hm : env.driveignore.Match currPath true = true) :
    missingVisitor env currPath info relativePath = { sent := [], ret := some .SkipDir } := by
  simp [missingVisitor, hd, hm]

theorem missingVisitor_ignored_file (env : Env) (currPath : Path) (info : FileInfo)
    (relativePath : Path) (hd : info.IsDir = false)
    (hm : env.driveignore.Match currPath false = true) :
    missingVisitor env currPath info relativePath = { sent := [], ret := none } := by
  simp [missingVisitor, hd, hm]

theorem missingVisitor_sent_subset (env : Env) (currPath : Path) (info : FileInfo)
    (relativePath q : Path) (hq : q ∈ (missingVisitor env currPath info relativePath).sent) :
    q = relativePath := by
  cases hm : env.driveignore.Match currPath info.IsDir with
  | false =>
    rw [missingVisitor_not_excluded env currPath info relativePath hm] at hq
    dsimp only at hq
    split at hq <;> simp at hq
    exact hq
  | true =>
    cases hd : info.IsDir with
    | true =>
      rw [hd] at hm
      rw [missingVisitor_skipDir env currPath info relativePath hd hm] at hq
      simp at hq
    | false =>
      rw [hd] at hm
      rw [missingVisitor_ignored_file env currPath info relativePath hd hm] at hq
      simp at hq

theorem missingVisitor_ret (env : Env) (currPath : Path) (info : FileInfo) (relativePath : Path) :
    (missingVisitor env currPath info relativePath).ret = none ∨
      (missingVisitor env currPath info relativePath).ret = some .SkipDir := by
  cases hm : env.driveignore.Match currPath info.IsDir with
  | false =>
    rw [missingVisitor_not_excluded env currPath info relativePath hm]
    exact Or.inl rfl
  | true =>
    cases hd : info.IsDir with
    | true =>
      rw [hd] at hm
      rw [missingVisitor_skipDir env currPath info relativePath hd hm]
      exact Or.inr rfl
    | false =>
      rw [hd] at hm
      rw [missingVisitor_ignored_file env currPath info relativePath hd hm]
      exact Or.inl rfl

/-! ## Claims about the visitors -/

/-- C1: for a visited source entry that the ignore matcher does not exclude, the
missing-walk visitor sends the relative path exactly when the stat of the
mirrored target path reports not-exist, or the entry is not a directory and is
not the same file as the target entry; for a directory the path is sent exactly
when the stat reports not-exist, and never when the stat finds an entry of any
kind; at most one path is sent and the visitor returns nil. -/
theorem missingVisitor_reports_iff (env : Env) (currPath : Path) (info : FileInfo)
    (relativePath : Path) (hkeep : env.driveignore.Match currPath info.IsDir = false) :
    ((missingVisitor env currPath info relativePath).sent = [relativePath] ↔
      (os.IsNotExist (env.Stat (filepath.Join env.target relativePath)).err = true ∨
        (info.IsDir = false ∧
          os.SameFile (some info) (env.Stat (filepath.Join env.target relativePath)).info
            = false))) ∧
    ((missingVisitor env currPath info relativePath).sent = [relativePath] ∨
      (missingVisitor env currPath info relativePath).sent = []) ∧
    (info.IsDir = true →
      ((missingVisitor env currPath info relativePath).sent = [relativePath] ↔
        env.Stat (filepath.Join env.target relativePath) = .fail .ENOENT) ∧
      ∀ found : FileInfo, env.Stat (filepath.Join env.target relativePath) = .ok found →
        (missingVisitor env currPath info relativePath).sent = []) ∧
    (missingVisitor env currPath info relativePath).sent.length ≤ 1 ∧
    (missingVisitor env currPath info relativePath).ret = none := by
  rw [missingVisitor_not_excluded env currPath info relativePath hkeep]
  have hr := reports_iff info (env.Stat (filepath.Join env.target relativePath))
  rw [← isNotExist_err_iff] at hr
  cases hrep : reports info (env.Stat (filepath.Join env.target relativePath)) with
  | true =>
    have h1 := hr.mp hrep
    refine ⟨by simpa using h1, by simp, ?_, by simp, rfl⟩
    intro hdir
    have hne : os.IsNotExist (env.Stat (filepath.Join env.target relativePath)).err = true := by
      rcases h1 with h | ⟨h, _⟩
      · exact h
      · rw [hdir] at h; cases h
    have hst := (isNotExist_err_iff _).mp hne
    refine ⟨by simpa using hst, ?_⟩
    intro found hfound
    rw [hst] at hfound
    cases hfound
  | false =>
    have h1 : ¬ (os.IsNotExist (env.Stat (filepath.Join env.target relativePath)).err = true ∨
        (info.IsDir = false ∧
          os.SameFile (some info) (env.Stat (filepath.Join env.target relativePath)).info
            = false)) := by
      intro h
      rw [hr.mpr h] at hrep
      cases hrep
    refine ⟨by simpa using h1, by simp, ?_, by simp, rfl⟩
    intro _
    refine ⟨?_, fun _ _ => by simp⟩
    have h2 : env.Stat (filepath.Join env.target relativePath) ≠ .fail .ENOENT := by
      intro h
      exact h1 (Or.inl ((isNotExist_err_iff _).mpr h))
    simpa using h2

/-- C2: the stale-walk visitor sends the relative path exactly when the stat of
the mirrored input path reports not-exist, or the entry is not a directory and
is not the same file as the input entry; it always returns nil (never
skip-subtree); and neither the visitor nor the stale walk changes when the
ignore matcher is replaced by any other. -/
theorem staleVisitor_reports_iff (env : Env) (currPath : Path) (info : FileInfo)
    (relativePath : Path) :
    ((staleVisitor env currPath info relativePath).sent = [relativePath] ↔
      (os.IsNotExist (env.Stat (filepath.Join env.diffInput relativePath)).err = true ∨
        (info.IsDir = false ∧
          os.SameFile (some info) (env.Stat (filepath.Join env.diffInput relativePath)).info
            = false))) ∧
    ((staleVisitor env currPath info relativePath).sent = [relativePath] ∨
      (staleVisitor env currPath info relativePath).sent = []) ∧
    (staleVisitor env currPath info relativePath).ret = none ∧
    (∀ other : IgnoreMatcher,
      staleVisitor { env with driveignore := other } currPath info relativePath =
        staleVisitor env currPath info relativePath) ∧
    (∀ (sys : Sys) (other : IgnoreMatcher),
      oldWalk sys { env with driveignore := other } = oldWalk sys env) := by
  refine ⟨?_, ?_, ?_, fun _ => rfl, fun _ _ => rfl⟩
  · rw [staleVisitor_eq]
    have hr := reports_iff info (env.Stat (filepath.Join env.diffInput relativePath))
    rw [← isNotExist_err_iff] at hr
    cases hrep : reports info (env.Stat (filepath.Join env.diffInput relativePath)) with
    | true => simpa using hr.mp hrep
    | false =>
      have h1 : ¬ (os.IsNotExist (env.Stat (filepath.Join env.diffInput relativePath)).err = true ∨
          (info.IsDir = false ∧
            os.SameFile (some info) (env.Stat (filepath.Join env.diffInput relativePath)).info
              = false)) := by
        intro h
        rw [hr.mpr h] at hrep
        cases hrep
      simpa using h1
  · rw [staleVisitor_eq]
    cases reports info (env.Stat (filepath.Join env.diffInput relativePath)) <;> simp
  · rw [staleVisitor_eq]

/-- C4: for a visited source entry that is not a directory and that the matcher
excludes as a file, the missing-walk visitor sends nothing and returns nil,
whatever the stat of the target reports. -/
theorem missingVisitor_ignored_file_silent (env : Env) (currPath : Path) (info : FileInfo)
    (relativePath : Path) (hfile : info.IsDir = false)
    (hmatch : env.driveignore.Match currPath false = true) :
    missingVisitor env currPath info relativePath = { sent := [], ret := none } ∧
    ∀ Stat : Path → StatResult,
      missingVisitor { env with Stat := Stat } currPath info relativePath =
        { sent := [], ret := none } :=
  ⟨missingVisitor_ignored_file env currPath info relativePath hfile hmatch,
   fun Stat => missingVisitor_ignored_file { env with Stat := Stat } currPath info relativePath
     hfile hmatch⟩

/-- C6 (amended): when the stat of the mirrored path fails with an error other
than not-exist, neither visitor returns that error: a visitor that gets to the
stat returns nil, and sends the relative path exactly when the visited entry is
not a directory. -/
theorem visitors_swallow_stat_error (env : Env) (currPath : Path) (info : FileInfo)
    (relativePath : Path) (e : Errno) (he : e ≠ .ENOENT) :
    (env.Stat (filepath.Join env.target relativePath) = .fail e →
      env.driveignore.Match currPath info.IsDir = false →
      missingVisitor env currPath info relativePath =
        { sent := if info.IsDir then [] else [relativePath], ret := none }) ∧
    (env.Stat (filepath.Join env.diffInput relativePath) = .fail e →
      staleVisitor env currPath info relativePath =
        { sent := if info.IsDir then [] else [relativePath], ret := none }) := by
  have key : ∀ st : StatResult, st = .fail e →
      reports info st = !info.IsDir := by
    intro st hst
    subst hst
    cases e <;> simp_all [reports, StatResult.err, StatResult.info, os.IsNotExist, os.SameFile]
  constructor
  · intro hst hkeep
    rw [missingVisitor_not_excluded env currPath info relativePath hkeep, key _ hst]
    cases info.IsDir <;> rfl
  · intro hst
    rw [staleVisitor_eq, key _ hst]
    cases info.IsDir <;> rfl

/-! ## Claims about the command -/

/-- What the argument validator does on each outcome of `os.Stat`: an error is
returned exactly when the number of arguments is not one, or the stat of the
single argument reports not-exist, or the stat finds a non-directory; nil is
returned exactly when the stat finds a directory; with a wrong count the result
is the count error whatever the filesystem holds. When the stat fails with any
other error neither an error nor nil is returned. -/
theorem args_error_iff (Stat : Path → StatResult) (args : List Path) :
    ((∃ e, diffCmd.Args Stat args = .returns (some e)) ↔
      (args.length ≠ 1 ∨
        ∃ a, args = [a] ∧
          (os.IsNotExist (Stat a).err = true ∨ ∃ fi, Stat a = .ok fi ∧ fi.IsDir = false))) ∧
    (diffCmd.Args Stat args = .returns none ↔
      ∃ a fi, args = [a] ∧ Stat a = .ok fi ∧ fi.IsDir = true) ∧
    (args.length = 1 ∨
      ∀ Stat2 : Path → StatResult,
        diffCmd.Args Stat2 args = .returns (some (.New "There should only be one argument"))) := by
  match args with
  | [] =>
    exact ⟨⟨fun _ => Or.inl (by decide), fun _ => ⟨_, rfl⟩⟩,
      ⟨fun h => by simp [diffCmd.Args] at h, fun ⟨_, _, h, _⟩ => by cases h⟩,
      Or.inr fun _ => rfl⟩
  | _ :: _ :: _ =>
    exact ⟨⟨fun _ => Or.inl (by simp),
        fun _ => ⟨.New "There should only be one argument", by simp [diffCmd.Args]⟩⟩,
      ⟨fun h => by simp [diffCmd.Args] at h, fun ⟨_, _, h, _⟩ => by cases h⟩,
      Or.inr fun _ => by simp [diffCmd.Args]⟩
  | [a] =>
    refine ⟨?_, ?_, Or.inl rfl⟩
    · cases hst : Stat a with
      | ok fi =>
        cases hd : fi.IsDir <;>
          simp [diffCmd.Args, hst, hd, StatResult.err, StatResult.info, os.IsNotExist]
      | fail e =>
        cases e <;> simp [diffCmd.Args, hst, StatResult.err, StatResult.info, os.IsNotExist]
    · cases hst : Stat a with
      | ok fi =>
        cases hd : fi.IsDir <;>
          simp [diffCmd.Args, hst, hd, StatResult.err, StatResult.info, os.IsNotExist]
      | fail e =>
        cases e <;> simp [diffCmd.Args, hst, StatResult.err, StatResult.info, os.IsNotExist]

/-- C8 (failing input): `f.txt` is a regular file, so the single argument
`f.txt/child` names a path that does not exist, and its stat fails with
not-a-directory; the validator panics at `fstat.IsDir()` instead of returning
the error. The same happens for the existing directory `locked/dir` whose stat
fails with permission denied, where nil is not returned either. -/
theorem args_panics_below_a_file :
    statBelowFile ["f.txt"] = .ok { IsDir := false, dev := 1, ino := 5 } ∧
    statBelowFile ["f.txt", "child"] = .fail .ENOTDIR ∧
    diffCmd.Args statBelowFile [["f.txt", "child"]] =
      .panics "invalid memory address or nil pointer dereference" ∧
    (¬ ∃ e, diffCmd.Args statBelowFile [["f.txt", "child"]] = .returns (some e)) ∧
    statLockedParent ["locked", "dir"] = .fail .EACCES ∧
    diffCmd.Args statLockedParent [["locked", "dir"]] ≠ .returns none := by
  refine ⟨by decide, by decide, by decide, ?_, by decide, by decide⟩
  rintro ⟨e, he⟩
  have h : diffCmd.Args statBelowFile [["f.txt", "child"]] =
      .panics "invalid memory address or nil pointer dereference" := by decide
  rw [h] at he
  cases he

/-- C10 (failing input): with one argument whose stat fails with permission
denied, the validator reaches `fstat.IsDir()` with a nil `FileInfo` and panics
instead of returning. -/
theorem args_panics_on_denied :
    diffCmd.Args (fun _ => .fail .EACCES) [["locked", "dir"]] =
      .panics "invalid memory address or nil pointer dereference" := by
  decide

/-- C9: when ignore resolution yields `NoIgnore`, `RunE` returns the error
without launching a walk or printing a path, whatever the walker is; for each
of the other three types it runs the walker on both roots: the walk over the
input root with the missing visitor gives the red lines, and when that walk
ends without error the walk over the target root with the stale visitor gives
the yellow lines and the returned error; when the first walk ends with an
error, that error is returned. -/
theorem runE_refuses_without_ignore (sys : Sys) (diffInput : Path) (diffMergeIgnores : Bool)
    (target : Path) :
    match (sys.DriveIgnore diffInput diffMergeIgnores).2 with
    | .NoIgnore =>
      diffCmd.RunE sys diffInput diffMergeIgnores target =
        { vlog := [], started := [], printed := [],
          ret := some (.New "No local nor global .driveignores found") } ∧
      ∀ Walker : Path → Visitor → WalkOut,
        diffCmd.RunE { sys with Walker := Walker } diffInput diffMergeIgnores target =
          diffCmd.RunE sys diffInput diffMergeIgnores target
    | _ =>
      (diffInput ∈ (diffCmd.RunE sys diffInput diffMergeIgnores target).started ∧
        target ∈ (diffCmd.RunE sys diffInput diffMergeIgnores target).started) ∧
      (diffCmd.RunE sys diffInput diffMergeIgnores target).printed =
        (sys.Walker diffInput
            (missingVisitor (capturedEnv sys diffInput diffMergeIgnores target))).sent.map
          Line.red ++
        (match (sys.Walker diffInput
            (missingVisitor (capturedEnv sys diffInput diffMergeIgnores target))).ret with
          | none =>
            (sys.Walker target
              (staleVisitor (capturedEnv sys diffInput diffMergeIgnores target))).sent.map
              Line.yellow
          | some _ => []) ∧
      (diffCmd.RunE sys diffInput diffMergeIgnores target).ret =
        (match (sys.Walker diffInput
            (missingVisitor (capturedEnv sys diffInput diffMergeIgnores target))).ret with
          | none =>
            (sys.Walker target
              (staleVisitor (capturedEnv sys diffInput diffMergeIgnores target))).ret
          | some err1 => some err1) := by
  cases h : (sys.DriveIgnore diffInput diffMergeIgnores).2
  case NoIgnore => simp [diffCmd.RunE, h]
  all_goals
    cases h1 : (sys.Walker diffInput
      (missingVisitor (capturedEnv sys diffInput diffMergeIgnores target))).ret <;>
    simp [diffCmd.RunE, h, missingWalk, oldWalk] <;>
    simp [capturedEnv] at h1 <;>
    simp [h1, capturedEnv]

/-- C7 (amended): when an ignore source is found, every missing path is
printed, whatever the stale walk returns; when the missing walk ends without
error the output is all missing lines followed by all stale lines and `RunE`
returns the stale walk's error; when the missing walk ends with an error `RunE`
returns that error having printed the missing lines only. -/
theorem runE_output (sys : Sys) (diffInput : Path) (diffMergeIgnores : Bool) (target : Path)
    (env : Env)
    (hty : (sys.DriveIgnore diffInput diffMergeIgnores).2 ≠ .NoIgnore)
    (henv : env = { driveignore := (sys.DriveIgnore diffInput diffMergeIgnores).1,
                    diffInput := diffInput, target := target, Stat := sys.Stat }) :
    (∀ p ∈ (missingWalk sys env).sent,
      Line.red p ∈ (diffCmd.RunE sys diffInput diffMergeIgnores target).printed) ∧
    ((missingWalk sys env).ret = none →
      (diffCmd.RunE sys diffInput diffMergeIgnores target).printed =
        (missingWalk sys env).sent.map Line.red ++ (oldWalk sys env).sent.map Line.yellow ∧
      (diffCmd.RunE sys diffInput diffMergeIgnores target).ret = (oldWalk sys env).ret) ∧
    (∀ err1, (missingWalk sys env).ret = some err1 →
      (diffCmd.RunE sys diffInput diffMergeIgnores target).printed =
        (missingWalk sys env).sent.map Line.red ∧
      (diffCmd.RunE sys diffInput diffMergeIgnores target).ret = some err1) := by
  subst henv
  cases h : (sys.DriveIgnore diffInput diffMergeIgnores).2
  case NoIgnore => exact absurd h hty
  all_goals
    cases h1 : (missingWalk sys
      { driveignore := (sys.DriveIgnore diffInput diffMergeIgnores).1,
        diffInput := diffInput, target := target, Stat := sys.Stat }).ret <;>
    simp [diffCmd.RunE, h, h1]

/-! ## The walk of spec 4.2 -/

theorem mem_walkEntries (visit : Visitor) (root rel q : Path) :
    ∀ es : List Entry, q ∈ (walkEntries visit root rel es).sent →
      ∃ e ∈ es, q ∈ (walkEntry visit root rel e).sent
  | [] => by
    intro h
    simp [walkEntries] at h
  | e :: rest => by
    intro h
    rw [walkEntries] at h
    dsimp only at h
    split at h
    · rcases List.mem_append.mp h with h1 | h2
      · exact ⟨e, List.mem_cons_self _ _, h1⟩
      · obtain ⟨e2, he2, hq⟩ := mem_walkEntries visit root rel q rest h2
        exact ⟨e2, List.mem_cons_of_mem _ he2, hq⟩
    · exact ⟨e, List.mem_cons_self _ _, h⟩

theorem mem_walkEntry_dir (visit : Visitor) (root rel q : Path) (n : String) (dev ino : Nat)
    (cs : List Entry) (h : q ∈ (walkEntry visit root rel (.dir n dev ino cs)).sent) :
    q ∈ (visit (filepath.Join root (rel ++ [n])) { IsDir := true, dev := dev, ino := ino }
          (rel ++ [n])).sent ∨
      ((visit (filepath.Join root (rel ++ [n])) { IsDir := true, dev := dev, ino := ino }
          (rel ++ [n])).ret = none ∧
        q ∈ (walkEntries visit root (rel ++ [n]) cs).sent) := by
  rw [walkEntry] at h
  dsimp only at h
  split at h
  · rename_i hret
    rcases List.mem_append.mp h with h1 | h2
    · exact Or.inl h1
    · exact Or.inr ⟨hret, h2⟩
  · exact Or.inl h
  · exact Or.inl h

theorem mem_walkEntry_file (visit : Visitor) (root rel q : Path) (n : String) (dev ino : Nat)
    (h : q ∈ (walkEntry visit root rel (.file n dev ino)).sent) :
    q ∈ (visit (filepath.Join root (rel ++ [n])) { IsDir := false, dev := dev, ino := ino }
          (rel ++ [n])).sent := by
  rw [walkEntry] at h
  split at h <;> exact h

mutual
theorem walkEntry_sent_below (visit : Visitor) (hv : SendsOwnPath visit) (root q : Path) :
    ∀ (e : Entry) (rel : Path), q ∈ (walkEntry visit root rel e).sent → (rel ++ [e.name]) <+: q
  | .file n dev ino, rel => by
    intro h
    have h1 := hv _ _ _ _ (mem_walkEntry_file visit root rel q n dev ino h)
    rw [h1]
    exact List.prefix_refl _
  | .dir n dev ino cs, rel => by
    intro h
    rcases mem_walkEntry_dir visit root rel q n dev ino cs h with h1 | ⟨_, h2⟩
    · rw [hv _ _ _ _ h1]
      exact List.prefix_refl _
    · obtain ⟨c, _, hc⟩ := walkEntries_sent_below visit hv root q cs (rel ++ [n]) h2
      exact (List.prefix_append _ _).trans hc
  | .unreadable n e, rel => by
    intro h
    simp [walkEntry] at h
theorem walkEntries_sent_below (visit : Visitor) (hv : SendsOwnPath visit) (root q : Path) :
    ∀ (es : List Entry) (rel : Path), q ∈ (walkEntries visit root rel es).sent →
      ∃ e ∈ es, (rel ++ [e.name]) <+: q
  | [], rel => by
    intro h
    simp [walkEntries] at h
  | e :: rest, rel => by
    intro h
    rw [walkEntries] at h
    dsimp only at h
    split at h
    · rcases List.mem_append.mp h with h1 | h2
      · exact ⟨e, List.mem_cons_self _ _, walkEntry_sent_below visit hv root q e rel h1⟩
      · obtain ⟨e2, he2, hq⟩ := walkEntries_sent_below visit hv root q rest rel h2
        exact ⟨e2, List.mem_cons_of_mem _ he2, hq⟩
    · exact ⟨e, List.mem_cons_self _ _, walkEntry_sent_below visit hv root q e rel h⟩
end

theorem findEntry_some (n : String) :
    ∀ (es : List Entry) (E : Entry), findEntry n es = some E → E ∈ es ∧ E.name = n
  | [], E => by
    intro h
    simp [findEntry] at h
  | e :: rest, E => by
    intro h
    rw [findEntry] at h
    split at h
    · rename_i hn
      cases h
      exact ⟨List.mem_cons_self _ _, hn⟩
    · obtain ⟨h1, h2⟩ := findEntry_some n rest E h
      exact ⟨List.mem_cons_of_mem _ h1, h2⟩

theorem name_unique (es : List Entry) (hnd : (es.map Entry.name).Nodup) (a b : Entry)
    (ha : a ∈ es) (hb : b ∈ es) (hab : a.name = b.name) : a = b :=
  List.inj_on_of_nodup_map hnd ha hb hab

theorem uniqueNames_of_mem :
    ∀ (es : List Entry) (e : Entry), uniqueNamesList es = true → e ∈ es → e.uniqueNames = true
  | [], e => by
    intro _ h
    cases h
  | x :: rest, e => by
    intro hu h
    rw [uniqueNamesList, Bool.and_eq_true] at hu
    rcases List.mem_cons.mp h with h1 | h2
    · rw [h1]
      exact hu.1
    · exact uniqueNames_of_mem rest e hu.2 h2

theorem wellFormed_children (es : List Entry) (n : String) (dev ino : Nat) (cs : List Entry)
    (hwf : WellFormed es) (hmem : Entry.dir n dev ino cs ∈ es) : WellFormed cs := by
  have h := uniqueNames_of_mem es _ hwf.2 hmem
  rw [Entry.uniqueNames, Bool.and_eq_true, decide_eq_true_eq] at h
  exact h

theorem same_name_of_common_start (rel q : Path) (a b : String) (ha : (rel ++ [a]) <+: q)
    (hb : (rel ++ [b]) <+: q) : a = b := by
  have h1 : (rel ++ [a]) <+: (rel ++ [b]) :=
    List.prefix_of_prefix_length_le ha hb (by simp)
  have h2 := h1.eq_of_length (by simp)
  simpa using h2

theorem missingVisitor_sendsOwnPath (env : Env) : SendsOwnPath (missingVisitor env) :=
  fun currPath info relativePath q h =>
    missingVisitor_sent_subset env currPath info relativePath q h

/-- Below an excluded directory nothing is sent: the generalisation of the
skip-subtree property to a listing at any depth `rel`. -/
theorem walkEntries_skips (env : Env) (root : Path) (n0 : String) (dev0 ino0 : Nat)
    (cs0 : List Entry) (q : Path) :
    ∀ (d : Path) (es : List Entry) (rel : Path), WellFormed es →
      lookup es d = some (.dir n0 dev0 ino0 cs0) →
      env.driveignore.Match (filepath.Join root (rel ++ d)) true = true →
      q ∈ (walkEntries (missingVisitor env) root rel es).sent → ¬ (rel ++ d) <+: q
  | [], es, rel => by
    intro _ hl
    simp [lookup] at hl
  | [n], es, rel => by
    intro hwf hl hm hq hpre
    rw [lookup] at hl
    obtain ⟨hmem, hname⟩ := findEntry_some n es _ hl
    obtain ⟨e, he, hqe⟩ := mem_walkEntries _ root rel q es hq
    have hp := walkEntry_sent_below _ (missingVisitor_sendsOwnPath env) root q e rel hqe
    have hn : e.name = n := same_name_of_common_start rel q _ _ hp hpre
    have hE : e = .dir n0 dev0 ino0 cs0 :=
      name_unique es hwf.1 _ _ he hmem (hn.trans hname.symm)
    subst hE
    have hn0 : n0 = n := hname
    subst hn0
    rw [walkEntry, missingVisitor_skipDir env _ _ _ rfl hm] at hqe
    simp at hqe
  | n :: m :: ns, es, rel => by
    intro hwf hl hm hq hpre
    rw [lookup] at hl
    split at hl
    · rename_i n1 dev1 ino1 cs1 hfind
      obtain ⟨hmem, hname⟩ := findEntry_some n es _ hfind
      have hn1 : n1 = n := hname
      subst hn1
      obtain ⟨e, he, hqe⟩ := mem_walkEntries _ root rel q es hq
      have hp := walkEntry_sent_below _ (missingVisitor_sendsOwnPath env) root q e rel hqe
      have hpre1 : (rel ++ [n1]) <+: q := by
        refine List.IsPrefix.trans ?_ hpre
        exact ⟨m :: ns, by simp⟩
      have hn : e.name = n1 := same_name_of_common_start rel q _ _ hp hpre1
      have hE : e = .dir n1 dev1 ino1 cs1 :=
        name_unique es hwf.1 _ _ he hmem (hn.trans hname.symm)
      subst hE
      rcases mem_walkEntry_dir _ root rel q n1 dev1 ino1 cs1 hqe with h1 | ⟨_, h2⟩
      · have hq1 := missingVisitor_sent_subset env _ _ _ _ h1
        rw [hq1] at hpre
        have hlen := hpre.length_le
        simp at hlen
      · have hwf1 := wellFormed_children es n1 dev1 ino1 cs1 hwf hmem
        have hm1 : env.driveignore.Match (filepath.Join root ((rel ++ [n1]) ++ (m :: ns))) true
            = true := by
          simpa using hm
        have := walkEntries_skips env root n0 dev0 ino0 cs0 q (m :: ns) cs1 (rel ++ [n1])
          hwf1 hl hm1 h2
        apply this
        simpa using hpre
    · cases hl

theorem walkEntries_ret_none_cons (visit : Visitor) (root rel : Path) (e : Entry)
    (rest : List Entry) (h : (walkEntries visit root rel (e :: rest)).ret = none) :
    (walkEntry visit root rel e).ret = none ∧ (walkEntries visit root rel rest).ret = none ∧
      (walkEntries visit root rel (e :: rest)).sent =
        (walkEntry visit root rel e).sent ++ (walkEntries visit root rel rest).sent := by
  rw [walkEntries] at h ⊢
  dsimp only at h ⊢
  split at h
  · rename_i hret
    simp only [hret]
    exact ⟨trivial, h, trivial⟩
  · cases h

theorem count_walkEntries_found (visit : Visitor) (root rel x : Path) (n : String) :
    ∀ (es : List Entry) (E : Entry), (es.map Entry.name).Nodup → findEntry n es = some E →
      (walkEntries visit root rel es).ret = none →
      (∀ e ∈ es, e.name ≠ n → x ∉ (walkEntry visit root rel e).sent) →
      (walkEntry visit root rel E).ret = none ∧
        (walkEntries visit root rel es).sent.count x = (walkEntry visit root rel E).sent.count x
  | [], E => by
    intro _ h
    simp [findEntry] at h
  | e :: rest, E => by
    intro hnd hfind hret hother
    obtain ⟨hre, hrr, hsent⟩ := walkEntries_ret_none_cons visit root rel e rest hret
    rw [hsent, List.count_append]
    rw [List.map_cons, List.nodup_cons] at hnd
    rw [findEntry] at hfind
    split at hfind
    · rename_i hn
      cases hfind
      refine ⟨hre, ?_⟩
      have h0 : x ∉ (walkEntries visit root rel rest).sent := by
        intro hx
        obtain ⟨e2, he2, hx2⟩ := mem_walkEntries visit root rel x rest hx
        have hne : e2.name ≠ n := by
          intro h2
          apply hnd.1
          rw [hn, ← h2]
          exact List.mem_map_of_mem _ he2
        exact hother e2 (List.mem_cons_of_mem _ he2) hne hx2
      rw [List.count_eq_zero_of_not_mem h0]
      rfl
    · rename_i hn
      have h0 : x ∉ (walkEntry visit root rel e).sent :=
        hother e (List.mem_cons_self _ _) hn
      obtain ⟨h1, h2⟩ := count_walkEntries_found visit root rel x n rest E hnd.2 hfind hrr
        (fun e2 he2 => hother e2 (List.mem_cons_of_mem _ he2))
      rw [List.count_eq_zero_of_not_mem h0, h2]
      exact ⟨h1, by simp⟩

/-- A file that is reachable without crossing an excluded directory, is not
excluded itself and has nothing at the mirrored path is sent exactly once by a
walk that ends without error: the statement for a listing at any depth. -/
theorem walkEntries_reports_once (env : Env) (root : Path) (n0 : String) (dev0 ino0 : Nat) :
    ∀ (p : Path) (es : List Entry) (rel : Path), WellFormed es →
      lookup es p = some (.file n0 dev0 ino0) →
      (∀ a : Path, a <+: p → a ≠ [] → a ≠ p →
        env.driveignore.Match (filepath.Join root (rel ++ a)) true = false) →
      env.driveignore.Match (filepath.Join root (rel ++ p)) false = false →
      env.Stat (filepath.Join env.target (rel ++ p)) = .fail .ENOENT →
      (walkEntries (missingVisitor env) root rel es).ret = none →
      (walkEntries (missingVisitor env) root rel es).sent.count (rel ++ p) = 1
  | [], es, rel => by
    intro _ hl
    simp [lookup] at hl
  | [n], es, rel => by
    intro hwf hl _ hm hst hret
    rw [lookup] at hl
    obtain ⟨hmem, hname⟩ := findEntry_some n es _ hl
    have hn0 : n0 = n := hname
    subst hn0
    have hother : ∀ e ∈ es, e.name ≠ n0 →
        (rel ++ [n0]) ∉ (walkEntry (missingVisitor env) root rel e).sent := by
      intro e _ hne hx
      have hp := walkEntry_sent_below _ (missingVisitor_sendsOwnPath env) root _ e rel hx
      exact hne (same_name_of_common_start rel _ _ _ hp (List.prefix_refl _))
    obtain ⟨_, hc⟩ := count_walkEntries_found _ root rel (rel ++ [n0]) n0 es _ hwf.1 hl hret hother
    rw [hc, walkEntry]
    have hv := missingVisitor_not_excluded env (filepath.Join root (rel ++ [n0]))
      { IsDir := false, dev := dev0, ino := ino0 } (rel ++ [n0]) hm
    have hrep : reports { IsDir := false, dev := dev0, ino := ino0 }
        (env.Stat (filepath.Join env.target (rel ++ [n0]))) = true := by
      rw [hst]
      rfl
    rw [hrep] at hv
    simp [hv]
  | n :: m :: ns, es, rel => by
    intro hwf hl hanc hm hst hret
    rw [lookup] at hl
    split at hl
    · rename_i n1 dev1 ino1 cs1 hfind
      obtain ⟨hmem, hname⟩ := findEntry_some n es _ hfind
      have hn1 : n1 = n := hname
      subst hn1
      have hother : ∀ e ∈ es, e.name ≠ n1 →
          (rel ++ n1 :: m :: ns) ∉ (walkEntry (missingVisitor env) root rel e).sent := by
        intro e _ hne hx
        have hp := walkEntry_sent_below _ (missingVisitor_sendsOwnPath env) root _ e rel hx
        have hpre1 : (rel ++ [n1]) <+: (rel ++ n1 :: m :: ns) := ⟨m :: ns, by simp⟩
        exact hne (same_name_of_common_start rel _ _ _ hp hpre1)
      obtain ⟨hre, hc⟩ := count_walkEntries_found _ root rel (rel ++ n1 :: m :: ns) n1 es _
        hwf.1 hfind hret hother
      rw [hc]
      have hdir : env.driveignore.Match (filepath.Join root (rel ++ [n1])) true = false :=
        hanc [n1] ⟨m :: ns, rfl⟩ (by simp) (by simp)
      have hv := missingVisitor_not_excluded env (filepath.Join root (rel ++ [n1]))
        { IsDir := true, dev := dev1, ino := ino1 } (rel ++ [n1]) hdir
      rw [walkEntry, hv] at hre ⊢
      dsimp only at hre ⊢
      have hwf1 := wellFormed_children es n1 dev1 ino1 cs1 hwf hmem
      have hanc1 : ∀ a : Path, a <+: (m :: ns) → a ≠ [] → a ≠ m :: ns →
          env.driveignore.Match (filepath.Join root ((rel ++ [n1]) ++ a)) true = false := by
        intro a ha hne hnp
        have := hanc (n1 :: a) ((List.prefix_cons_inj n1).mpr ha) (by simp) (by simpa using hnp)
        simpa using this
      have ih := walkEntries_reports_once env root n0 dev0 ino0 (m :: ns) cs1 (rel ++ [n1]) hwf1 hl
        hanc1 (by simpa using hm) (by simpa using hst) hre
      rw [List.count_append]
      have hx : (rel ++ n1 :: m :: ns) ∉
          (if reports { IsDir := true, dev := dev1, ino := ino1 }
              (env.Stat (filepath.Join env.target (rel ++ [n1]))) = true
            then [rel ++ [n1]] else []) := by
        split <;> simp
      rw [List.count_eq_zero_of_not_mem hx]
      simpa using ih
    · cases hl

theorem mem_Walker (visitRoot : Bool) (ls : Path → Tree) (root : Path) (visit : Visitor)
    (q : Path) (h : q ∈ (utils.Walker visitRoot ls root visit).sent) :
    q ∈ (visit root { IsDir := true, dev := (ls root).dev, ino := (ls root).ino } []).sent ∨
      q ∈ (walkEntries visit root [] (ls root).children).sent := by
  unfold utils.Walker at h
  dsimp only at h
  split at h
  · split at h
    · rcases List.mem_append.mp h with h1 | h2
      · exact Or.inl h1
      · exact Or.inr h2
    · exact Or.inl h
    · exact Or.inl h
  · exact Or.inr h

/-! ## Claims about the whole walk -/

/-- C3: for a directory D of a well-formed source tree that the matcher
excludes as a directory, the missing-walk visitor returns skip-subtree at D
and sends nothing, and the missing stream of the walk holds neither the
relative path of D nor any path below it. -/
theorem ignored_directory_subtree_excluded (visitRoot : Bool) (ls : Path → Tree) (env : Env)
    (d : Path) (n : String) (dev ino : Nat) (cs : List Entry)
    (hwf : WellFormed (ls env.diffInput).children)
    (hD : lookup (ls env.diffInput).children d = some (.dir n dev ino cs))
    (hm : env.driveignore.Match (filepath.Join env.diffInput d) true = true) :
    missingVisitor env (filepath.Join env.diffInput d) { IsDir := true, dev := dev, ino := ino } d
      = { sent := [], ret := some .SkipDir } ∧
    ∀ t : Path,
      d ++ t ∉ (utils.Walker visitRoot ls env.diffInput (missingVisitor env)).sent := by
  refine ⟨missingVisitor_skipDir env _ _ _ rfl hm, ?_⟩
  intro t ht
  rcases mem_Walker visitRoot ls env.diffInput _ _ ht with h1 | h2
  · have h0 := missingVisitor_sent_subset env _ _ _ _ h1
    have hd : d = [] := (List.append_eq_nil.mp h0).1
    rw [hd] at hD
    simp [lookup] at hD
  · exact walkEntries_skips env env.diffInput n dev ino cs (d ++ t) d (ls env.diffInput).children []
      hwf hD (by simpa using hm) h2 (by simp)

/-- C5 (amended): for a file F of a well-formed source tree that the matcher
does not exclude as a file, with no excluded directory between the walk root
and F (the root included when the walker visits it) and nothing at the mirrored
target path, the relative path of F occurs exactly once in the missing stream
of a walk that ends without error. -/
theorem missing_file_reported_once (visitRoot : Bool) (ls : Path → Tree) (env : Env)
    (p : Path) (n : String) (dev ino : Nat)
    (hwf : WellFormed (ls env.diffInput).children)
    (hF : lookup (ls env.diffInput).children p = some (.file n dev ino))
    (hroot : visitRoot = true → env.driveignore.Match env.diffInput true = false)
    (hanc : ∀ a : Path, a <+: p → a ≠ [] → a ≠ p →
      env.driveignore.Match (filepath.Join env.diffInput a) true = false)
    (hm : env.driveignore.Match (filepath.Join env.diffInput p) false = false)
    (hst : env.Stat (filepath.Join env.target p) = .fail .ENOENT)
    (hret : (utils.Walker visitRoot ls env.diffInput (missingVisitor env)).ret = none) :
    (utils.Walker visitRoot ls env.diffInput (missingVisitor env)).sent.count p = 1 := by
  have hp : p ≠ [] := by
    intro h
    rw [h] at hF
    simp [lookup] at hF
  have key : (walkEntries (missingVisitor env) env.diffInput [] (ls env.diffInput).children).ret
      = none →
      (walkEntries (missingVisitor env) env.diffInput [] (ls env.diffInput).children).sent.count p
        = 1 := by
    intro hr
    have := walkEntries_reports_once env env.diffInput n dev ino p (ls env.diffInput).children []
      hwf hF (by simpa using hanc) (by simpa using hm) (by simpa using hst) hr
    simpa using this
  unfold utils.Walker at hret ⊢
  dsimp only at hret ⊢
  cases visitRoot with
  | false => simpa using key (by simpa using hret)
  | true =>
    have hv := missingVisitor_not_excluded env env.diffInput
      { IsDir := true, dev := (ls env.diffInput).dev, ino := (ls env.diffInput).ino } []
      (hroot rfl)
    simp only [if_true] at hret ⊢
    rw [hv] at hret ⊢
    dsimp only at hret ⊢
    rw [List.count_append, key hret]
    have hx : ∀ b : Bool, p ∉ (if b = true then [([] : Path)] else []) := by
      intro b
      cases b
      · simp
      · simpa using hp
    rw [List.count_eq_zero_of_not_mem (hx _)]

/-! ## Concrete runs -/

/-- Witness for C1 on `diskOneEach`: `a.txt` is not excluded and its mirrored
path does not exist, so the visitor sends it and returns nil. -/
theorem missingVisitor_reports_iff_witness :
    ignoreNothing.Match ["src", "a.txt"] false = false ∧
    (missingVisitor (diskOneEach.env ignoreNothing) ["src", "a.txt"]
        { IsDir := false, dev := 1, ino := 10 } ["a.txt"]).sent = [["a.txt"]] ∧
    (missingVisitor (diskOneEach.env ignoreNothing) ["src", "a.txt"]
        { IsDir := false, dev := 1, ino := 10 } ["a.txt"]).ret = none :=
  ⟨by decide,
   (missingVisitor_reports_iff (diskOneEach.env ignoreNothing) ["src", "a.txt"]
      { IsDir := false, dev := 1, ino := 10 } ["a.txt"] (by decide)).1.mpr (Or.inl (by decide)),
   (missingVisitor_reports_iff (diskOneEach.env ignoreNothing) ["src", "a.txt"]
      { IsDir := false, dev := 1, ino := 10 } ["a.txt"] (by decide)).2.2.2.2⟩

/-- Witness for C4 (Scenario 3): with the pattern `*.tmp`, the visitor is silent
at `c.tmp`, and the walk goes on to `d.txt`, the only path of the stream. -/
theorem missingVisitor_ignored_file_silent_witness :
    ignoreTmp.Match ["src", "c.tmp"] false = true ∧
    missingVisitor (diskTmp.env ignoreTmp) ["src", "c.tmp"]
        { IsDir := false, dev := 1, ino := 10 } ["c.tmp"] = { sent := [], ret := none } ∧
    missingWalk (diskTmp.sys ignoreTmp .LocalIgnore true) (diskTmp.env ignoreTmp) =
      { sent := [["d.txt"]], ret := none } :=
  ⟨by decide,
   (missingVisitor_ignored_file_silent (diskTmp.env ignoreTmp) ["src", "c.tmp"]
      { IsDir := false, dev := 1, ino := 10 } ["c.tmp"] rfl (by decide)).1,
   by decide⟩

/-- Witness for C3 (Scenario 4): with `sub/` excluded, the visitor returns
skip-subtree at `sub`, and neither `sub` nor `sub/inner.txt` is in the stream. -/
theorem ignored_directory_subtree_excluded_witness :
    WellFormed (diskSub.ls (diskSub.env ignoreSubDir).diffInput).children ∧
    ignoreSubDir.Match ["src", "sub"] true = true ∧
    ignoreSubDir.Match ["src", "sub", "inner.txt"] false = false ∧
    diskSub.Stat ["drive", "sub", "inner.txt"] = .fail .ENOENT ∧
    missingVisitor (diskSub.env ignoreSubDir)
        (filepath.Join (diskSub.env ignoreSubDir).diffInput ["sub"])
        { IsDir := true, dev := 1, ino := 10 } ["sub"] = { sent := [], ret := some .SkipDir } ∧
    ["sub"] ∉ (utils.Walker true diskSub.ls (diskSub.env ignoreSubDir).diffInput
        (missingVisitor (diskSub.env ignoreSubDir))).sent ∧
    ["sub", "inner.txt"] ∉ (utils.Walker true diskSub.ls (diskSub.env ignoreSubDir).diffInput
        (missingVisitor (diskSub.env ignoreSubDir))).sent :=
  ⟨by decide, by decide, by decide, by decide,
   (ignored_directory_subtree_excluded true diskSub.ls (diskSub.env ignoreSubDir) ["sub"]
      "sub" 1 10 [.file "inner.txt" 1 11] (by decide) rfl (by decide)).1,
   (ignored_directory_subtree_excluded true diskSub.ls (diskSub.env ignoreSubDir) ["sub"]
      "sub" 1 10 [.file "inner.txt" 1 11] (by decide) rfl (by decide)).2 [],
   (ignored_directory_subtree_excluded true diskSub.ls (diskSub.env ignoreSubDir) ["sub"]
      "sub" 1 10 [.file "inner.txt" 1 11] (by decide) rfl (by decide)).2 ["inner.txt"]⟩

/-- Counterexample to C5 as stated (Scenario 4): `sub/inner.txt` is a file of
the source tree that matches no pattern as a file and has nothing at the
mirrored path, the walk ends without error, and the path is not in the missing
stream, whether or not the walker visits the root. -/
theorem missing_file_under_ignored_dir_not_reported :
    WellFormed (diskSub.ls ["src"]).children ∧
    lookup (diskSub.ls ["src"]).children ["sub", "inner.txt"] = some (.file "inner.txt" 1 11) ∧
    ignoreSubDir.Match ["src", "sub", "inner.txt"] false = false ∧
    diskSub.Stat ["drive", "sub", "inner.txt"] = .fail .ENOENT ∧
    utils.Walker true diskSub.ls ["src"] (missingVisitor (diskSub.env ignoreSubDir)) =
      { sent := [], ret := none } ∧
    utils.Walker false diskSub.ls ["src"] (missingVisitor (diskSub.env ignoreSubDir)) =
      { sent := [], ret := none } ∧
    (utils.Walker true diskSub.ls ["src"] (missingVisitor (diskSub.env ignoreSubDir))).sent.count
      ["sub", "inner.txt"] ≠ 1 :=
  ⟨by decide, rfl, by decide, by decide, by decide, by decide, by decide⟩

/-- Witness for C5 (amended) on `diskDocs` with the pattern `*.tmp`:
`docs/a.txt` occurs once in the missing stream. -/
theorem missing_file_reported_once_witness :
    WellFormed (diskDocs.ls (diskDocs.env ignoreTmp).diffInput).children ∧
    utils.Walker true diskDocs.ls (diskDocs.env ignoreTmp).diffInput
        (missingVisitor (diskDocs.env ignoreTmp)) =
      { sent := [["docs"], ["docs", "a.txt"]], ret := none } ∧
    (utils.Walker true diskDocs.ls (diskDocs.env ignoreTmp).diffInput
        (missingVisitor (diskDocs.env ignoreTmp))).sent.count ["docs", "a.txt"] = 1 :=
  ⟨by decide, by decide,
   missing_file_reported_once true diskDocs.ls (diskDocs.env ignoreTmp) ["docs", "a.txt"]
     "a.txt" 1 11 (by decide) rfl (fun _ => by decide)
     (fun a ha hne hnp => by
       rcases a with _ | ⟨x, _ | ⟨y, t⟩⟩
       · exact absurd rfl hne
       · have hx : x = "docs" := by
           obtain ⟨r, hr⟩ := ha
           simp at hr
           exact hr.1
         subst hx
         decide
       · exfalso
         apply hnp
         have hl := ha.length_le
         simp only [List.length_cons, List.length_nil] at hl
         exact ha.eq_of_length (by
           simp only [List.length_cons, List.length_nil]
           omega))
     (by decide) (by decide) (by decide)⟩

/-- Counterexample to C6 as stated: the stat of the mirrored path fails with
permission denied, and the visitors return nil instead of the error; for the
file `secret.txt` both send a report line, for the directory `vault` the
missing-walk visitor sends nothing, and the missing walk ends with a nil
error. -/
theorem stat_error_not_propagated :
    diskDenied.Stat ["drive", "secret.txt"] = .fail .EACCES ∧
    diskDenied.Stat ["drive", "vault"] = .fail .EACCES ∧
    missingVisitor (diskDenied.env ignoreNothing) ["src", "secret.txt"]
        { IsDir := false, dev := 1, ino := 10 } ["secret.txt"] =
      { sent := [["secret.txt"]], ret := none } ∧
    missingVisitor (diskDenied.env ignoreNothing) ["src", "vault"]
        { IsDir := true, dev := 1, ino := 11 } ["vault"] = { sent := [], ret := none } ∧
    missingWalk (diskDenied.sys ignoreNothing .LocalIgnore true) (diskDenied.env ignoreNothing) =
      { sent := [["secret.txt"]], ret := none } ∧
    diskDeniedInput.Stat ["src", "secret.txt"] = .fail .EACCES ∧
    staleVisitor (diskDeniedInput.env ignoreNothing) ["drive", "secret.txt"]
        { IsDir := false, dev := 1, ino := 20 } ["secret.txt"] =
      { sent := [["secret.txt"]], ret := none } ∧
    oldWalk (diskDeniedInput.sys ignoreNothing .LocalIgnore true)
        (diskDeniedInput.env ignoreNothing) =
      { sent := [["secret.txt"]], ret := none } := by
  decide

/-- Witness for C6 (amended) at the permission-denied stats of `diskDenied` and
`diskDeniedInput`. -/
theorem visitors_swallow_stat_error_witness :
    Errno.EACCES ≠ Errno.ENOENT ∧
    missingVisitor (diskDenied.env ignoreNothing) ["src", "vault"]
        { IsDir := true, dev := 1, ino := 11 } ["vault"] =
      { sent := if (FileInfo.mk true 1 11).IsDir then [] else [["vault"]], ret := none } ∧
    staleVisitor (diskDeniedInput.env ignoreNothing) ["drive", "secret.txt"]
        { IsDir := false, dev := 1, ino := 20 } ["secret.txt"] =
      { sent := if (FileInfo.mk false 1 20).IsDir then [] else [["secret.txt"]], ret := none } :=
  ⟨by decide,
   (visitors_swallow_stat_error (diskDenied.env ignoreNothing) ["src", "vault"]
      { IsDir := true, dev := 1, ino := 11 } ["vault"] .EACCES (by decide)).1
      (by decide) (by decide),
   (visitors_swallow_stat_error (diskDeniedInput.env ignoreNothing) ["drive", "secret.txt"]
      { IsDir := false, dev := 1, ino := 20 } ["secret.txt"] .EACCES (by decide)).2
      (by decide)⟩

/-- Counterexample to C7 as stated: the missing walk ends with an error, the
stale walk has found `b.txt`, and `RunE` returns the error having printed
nothing, so the stale path is not reported. -/
theorem stale_paths_dropped_on_missing_error :
    (missingWalk (diskLocked.sys ignoreNothing .GlobalIgnore true)
        (diskLocked.env ignoreNothing)).ret = some (.errno .EACCES) ∧
    (oldWalk (diskLocked.sys ignoreNothing .GlobalIgnore true)
        (diskLocked.env ignoreNothing)).sent = [["b.txt"]] ∧
    diffCmd.RunE (diskLocked.sys ignoreNothing .GlobalIgnore true) ["src"] false ["drive"] =
      { vlog := ["loaded global .driveignore"], started := [["src"], ["drive"]],
        printed := [], ret := some (.errno .EACCES) } ∧
    Line.yellow ["b.txt"] ∉
      (diffCmd.RunE (diskLocked.sys ignoreNothing .GlobalIgnore true) ["src"] false
        ["drive"]).printed := by
  decide

/-- Witness for C7 (amended) on `diskOneEach` (Scenarios 1 and 2): the missing
line comes first, then the stale line, and `RunE` returns nil. -/
theorem runE_output_witness :
    ((diskOneEach.sys ignoreNothing .MergedIgnore true).DriveIgnore ["src"] true).2
      ≠ .NoIgnore ∧
    (diffCmd.RunE (diskOneEach.sys ignoreNothing .MergedIgnore true) ["src"] true
        ["drive"]).printed = [Line.red ["a.txt"], Line.yellow ["b.txt"]] ∧
    (diffCmd.RunE (diskOneEach.sys ignoreNothing .MergedIgnore true) ["src"] true
        ["drive"]).ret = none :=
  ⟨by decide,
   ((runE_output (diskOneEach.sys ignoreNothing .MergedIgnore true) ["src"] true ["drive"]
      (diskOneEach.env ignoreNothing) (by decide) rfl).2.1 (by decide)).1.trans (by decide),
   ((runE_output (diskOneEach.sys ignoreNothing .MergedIgnore true) ["src"] true ["drive"]
      (diskOneEach.env ignoreNothing) (by decide) rfl).2.1 (by decide)).2.trans (by decide)⟩

end DriveIgnore
